import Mathlib

/-!
Shallow embedding of the flowengine repository core
(crates/flowcore: value.rs, workflow.rs, node.rs, error.rs, events/base.rs;
crates/flowruntime: executor.rs, registry.rs, runtime.rs), together with
proofs settling the frozen claims about the DAG executor, the event
protocol and the Value wire encoding.

Modelling conventions:
* `Uuid` node ids are modelled as `Nat`; `NodeId::nil()` is `0`.
* Rust `HashMap` is modelled as an association list where `insert` conses
  at the head and lookup takes the first match, so insert-overwrites /
  last-insert-wins semantics are preserved.  `HashSet` is a duplicate-free
  list with a guarded insert.
* `f64` payloads of `Value::Number` are modelled by `F64`: the finite
  doubles as exact rationals (serde_json round-trips finite doubles
  exactly), plus the non-finite values NaN and plus/minus infinity, which
  serde_json serializes as JSON `null` and cannot deserialize back.  JSON
  numbers themselves are exact rationals (serde_json's `Number` holds no
  non-finite value).
* Timestamps, durations and the `execution_id` carried by every event are
  constant decorations of a single run and are elided from the event model.
* The async scheduler is modelled as a deterministic transition system
  parameterised by an oracle `behavior` giving each node's `execute`
  result (a timed-out task surfaces through the same `Err` path in the
  source) and a `sched` function choosing which in-flight task the
  `running.next().await` call yields first.  `FuturesUnordered` is the
  list `running`; the finished task is removed by value (task ids in
  `running` are unique, which is proved as an invariant).
-/

namespace FlowEngine

/-- Association-list lookup modelling `HashMap::get`: first match wins,
which together with cons-on-insert models insert-overwrite semantics. -/
def assocFind {κ α : Type} [BEq κ] (m : List (κ × α)) (k : κ) : Option α :=
  match m with
  | [] => none
  | p :: rest => if p.1 == k then some p.2 else assocFind rest k

/-- JSON trees, the target of serde_json serialization.  Numbers are
modelled as exact rationals (see the header note on `f64`). -/
inductive Jsonv : Type where
  | null : Jsonv
  | bool (b : Bool) : Jsonv
  | num (q : ℚ) : Jsonv
  | str (s : String) : Jsonv
  | arr (elems : List Jsonv) : Jsonv
  | obj (fields : List (String × Jsonv)) : Jsonv

/-- The `f64` payload of `Value::Number`: a finite double (modelled as
an exact rational) or one of the non-finite values NaN, +inf, -inf.
(Rust's derived `PartialEq` is not reflexive on NaN; the equality of
this model is only used where the source round trip already fails before
any comparison, so it is not load-bearing there.) -/
inductive F64 : Type where
  | finite (q : ℚ) : F64
  | nan : F64
  | inf : F64
  | negInf : F64

/-- `Value` from flowcore/src/value.rs: the eight-variant dynamic value
algebra.  `Bytes` holds `u8` values (`Fin 256`); `Object` is a
`HashMap<String, Value>` modelled as an association list. -/
inductive Value : Type where
  | null : Value
  | bool (b : Bool) : Value
  | number (n : F64) : Value
  | string (s : String) : Value
  | bytes (bs : List (Fin 256)) : Value
  | json (j : Jsonv) : Value
  | array (xs : List Value) : Value
  | object (fields : List (String × Value)) : Value

/-- The `as_str` accessor from value.rs (payload-level model). -/
def Value.as_str : Value → Option String
  | .string s => some s
  | _ => none

/-- The `is_null` accessor from value.rs. -/
def Value.is_null : Value → Bool
  | .null => true
  | _ => false

/-- serde_json's serialization of an `f64`: a finite double becomes a
JSON number; NaN and plus/minus infinity are written as JSON `null` by
serde_json's serializer. -/
def encodeF64 : F64 → Jsonv
  | .finite q => .num q
  | .nan => .null
  | .inf => .null
  | .negInf => .null

/-- serde_json's deserialization of an `f64`: only a JSON number is
accepted (deserializing `f64` from `null` is an error), so a non-finite
double does not survive the round trip. -/
def decodeF64 : Jsonv → Option F64
  | .num q => some (.finite q)
  | _ => none

/-- Wrapped serde encoding of one byte of a `Bytes` payload: a `u8`
serializes as a JSON number. -/
def encodeByte (b : Fin 256) : Jsonv :=
  Jsonv.num (b.val : ℚ)

/-- Deserialization of one byte: a JSON number that is an integer in
`[0, 256)`; anything else is rejected by serde. -/
def decodeByte : Jsonv → Option (Fin 256)
  | .num q =>
    if h : q.den = 1 ∧ 0 ≤ q.num ∧ q.num < 256 then
      some ⟨q.num.toNat, by omega⟩
    else none
  | _ => none

/-- Byte-list deserialization for the `Bytes` payload. -/
def decodeBytes : List Jsonv → Option (List (Fin 256))
  | [] => some []
  | j :: rest => do
    let b ← decodeByte j
    let bs ← decodeBytes rest
    pure (b :: bs)

mutual

/-- Wrapped serde encoding of `Value`, following
`#[serde(tag = "type", content = "value")]` on the enum in value.rs:
each value becomes `{type: <variant>, value: <payload>}` and the unit
variant `Null` becomes `{type: "Null"}`. -/
def serializeValue : Value → Jsonv
  | .null => .obj [("type", .str "Null")]
  | .bool b => .obj [("type", .str "Bool"), ("value", .bool b)]
  | .number n => .obj [("type", .str "Number"), ("value", encodeF64 n)]
  | .string s => .obj [("type", .str "String"), ("value", .str s)]
  | .bytes bs => .obj [("type", .str "Bytes"), ("value", .arr (bs.map encodeByte))]
  | .json j => .obj [("type", .str "Json"), ("value", j)]
  | .array xs => .obj [("type", .str "Array"), ("value", .arr (serializeValueList xs))]
  | .object fields => .obj [("type", .str "Object"), ("value", .obj (serializeValueObj fields))]

/-- Element-wise encoding of an `Array` payload. -/
def serializeValueList : List Value → List Jsonv
  | [] => []
  | v :: vs => serializeValue v :: serializeValueList vs

/-- Entry-wise encoding of an `Object` payload. -/
def serializeValueObj : List (String × Value) → List (String × Jsonv)
  | [] => []
  | (k, v) :: rest => (k, serializeValue v) :: serializeValueObj rest

end

mutual

/-- Wrapped serde decoding of `Value`: reads the `type` tag and the
`value` payload produced by `serializeValue`. -/
def deserializeValue : Jsonv → Option Value
  | .obj [("type", .str t)] =>
    if t = "Null" then some .null else none
  | .obj [("type", .str t), ("value", p)] =>
    if t = "Bool" then
      match p with
      | .bool b => some (.bool b)
      | _ => none
    else if t = "Number" then
      (decodeF64 p).map .number
    else if t = "String" then
      match p with
      | .str s => some (.string s)
      | _ => none
    else if t = "Bytes" then
      match p with
      | .arr js => (decodeBytes js).map .bytes
      | _ => none
    else if t = "Json" then
      some (.json p)
    else if t = "Array" then
      match p with
      | .arr js => (deserializeValueList js).map .array
      | _ => none
    else if t = "Object" then
      match p with
      | .obj kvs => (deserializeValueObj kvs).map .object
      | _ => none
    else none
  | _ => none

/-- Element-wise decoding of an `Array` payload. -/
def deserializeValueList : List Jsonv → Option (List Value)
  | [] => some []
  | j :: rest => do
    let v ← deserializeValue j
    let vs ← deserializeValueList rest
    pure (v :: vs)

/-- Entry-wise decoding of an `Object` payload. -/
def deserializeValueObj : List (String × Jsonv) → Option (List (String × Value))
  | [] => some []
  | (k, j) :: rest => do
    let v ← deserializeValue j
    let vs ← deserializeValueObj rest
    pure ((k, v) :: vs)

end

mutual

/-- Whether every `Number` payload of the value, at any depth (inside
`Array` and `Object` children included; numbers inside a `Json` tree
are finite by construction), is a finite double. -/
def Value.allFinite : Value → Bool
  | .number (.finite _) => true
  | .number _ => false
  | .array xs => allFiniteList xs
  | .object fields => allFiniteObj fields
  | _ => true

/-- `allFinite` over the elements of an `Array` payload. -/
def allFiniteList : List Value → Bool
  | [] => true
  | v :: vs => Value.allFinite v && allFiniteList vs

/-- `allFinite` over the entries of an `Object` payload. -/
def allFiniteObj : List (String × Value) → Bool
  | [] => true
  | (_, v) :: rest => Value.allFinite v && allFiniteObj rest

end

/-- Node ids (`Uuid` in workflow.rs) are modelled as naturals. -/
abbrev NodeId := Nat

/-- `NodeId::nil()`, the sentinel under which initial inputs are stored. -/
def NodeId.nilId : NodeId := 0

/-- `Connection` from workflow.rs: a directed port-to-port edge. -/
structure Connection : Type where
  from_node : NodeId
  from_port : String
  to_node : NodeId
  to_port : String

/-- `NodeSpec` from workflow.rs (fields not read by the executor — `name`,
`position`, `retry_policy` — are elided). -/
structure NodeSpec : Type where
  id : NodeId
  node_type : String
  config : List (String × Value)

/-- `ErrorHandling` from workflow.rs. -/
inductive ErrorHandling : Type where
  | stopWorkflow : ErrorHandling
  | continueOnError : ErrorHandling
  | retryWorkflow (max_attempts : Nat) : ErrorHandling

/-- `WorkflowSettings` from workflow.rs. -/
structure WorkflowSettings : Type where
  max_execution_time_ms : Option Nat
  max_parallel_nodes : Nat
  on_error : ErrorHandling

/-- The `Default` impl of `WorkflowSettings`. -/
def WorkflowSettings.defaultSettings : WorkflowSettings :=
  { max_execution_time_ms := none, max_parallel_nodes := 10,
    on_error := .stopWorkflow }

/-- `Workflow` from workflow.rs (`triggers` are opaque to the core and
elided). -/
structure Workflow : Type where
  id : Nat
  name : String
  description : Option String
  nodes : List NodeSpec
  connections : List Connection
  settings : WorkflowSettings

/-- `Workflow::find_node`. -/
def Workflow.find_node (wf : Workflow) (id : NodeId) : Option NodeSpec :=
  wf.nodes.find? (fun n => n.id == id)

/-- `WorkflowError` from error.rs (the variants the executor produces). -/
inductive WorkflowError : Type where
  | notFound (s : String) : WorkflowError
  | invalid (s : String) : WorkflowError
  | cyclicDependency : WorkflowError
  | nodeNotFound (s : String) : WorkflowError
  | unknownNodeType (s : String) : WorkflowError
  | invalidConnection (s : String) : WorkflowError

/-- `FlowError` from error.rs (the variants the executor produces). -/
inductive FlowError : Type where
  | workflow (e : WorkflowError) : FlowError
  | execution (s : String) : FlowError

/-- `tokio_util::sync::CancellationToken` as used by executor.rs:
`CancellationToken::new()` creates an untriggered token linked to no
parent, and executor.rs never stores, forwards or cancels any token, so
the only observable facts are the token's (constant) triggered state. -/
structure CancellationToken : Type where
  cancelled : Bool
deriving DecidableEq

/-- `CancellationToken::new()`: a fresh, untriggered, parentless token. -/
def CancellationToken.new : CancellationToken :=
  { cancelled := false }

/-- `NodeContext` from node.rs as constructed by executor.rs lines
167-174 (the per-instance state store and the event emitter are fresh
per context; both are opaque to the claims and elided). -/
structure NodeContext : Type where
  node_id : NodeId
  inputs : List (String × Value)
  config : List (String × Value)
  cancellation : CancellationToken

/-- `ExecutionEvent` from events/base.rs.  The `execution_id` and
`timestamp` carried by every variant, and the `duration_ms` payloads, are
constant decorations of a single run and are elided. -/
inductive ExecutionEvent : Type where
  | workflowStarted (workflow_id : Nat) : ExecutionEvent
  | workflowCompleted (success : Bool) : ExecutionEvent
  | nodeStarted (node_id : NodeId) (node_type : String) : ExecutionEvent
  | nodeCompleted (node_id : NodeId) (outputs : List (String × Value)) : ExecutionEvent
  | nodeFailed (node_id : NodeId) (error : String) : ExecutionEvent

/-- Lifecycle hooks of the `Node` trait (node.rs) that the executor can
invoke on a node instance; recorded as a ghost trace. -/
inductive NodeHook : Type where
  | initHook : NodeHook
  | execHook : NodeHook
  | shutdownHook : NodeHook
deriving DecidableEq

/-- `ExecutionResult` from executor.rs (the random `execution_id` is
elided). -/
structure ExecutionResult : Type where
  outputs : List (NodeId × List (String × Value))
  completed_nodes : Nat
  total_nodes : Nat

/-- The context `execute_dag` threads through its loop: `completed`,
`node_outputs`, the `running` set of in-flight tasks (task ids; the
oracle `behavior` supplies each task's result), the keys still present in
`node_instances`, plus ghost observations: the events emitted so far, the
`NodeContext`s built, the lifecycle hooks invoked, and the largest
`running` cardinality ever observed. -/
structure DagState : Type where
  completed : List NodeId
  nodeOutputs : List (NodeId × List (String × Value))
  running : List NodeId
  instances : List NodeId
  events : List ExecutionEvent
  contexts : List NodeContext
  hooks : List (NodeId × NodeHook)
  maxRunningObserved : Nat

/-- The read-only data `execute_dag` consults each iteration: the
parallelism bound stored in `WorkflowExecutor` at construction, the
workflow's nodes and connections, the dependency edges of the built
graph, and the `on_error` setting. -/
structure DagCore : Type where
  maxParallel : Nat
  nodes : List NodeSpec
  connections : List Connection
  edges : List (NodeId × NodeId)
  onError : ErrorHandling

/-- `WorkflowExecutor::find_ready_nodes`: every graph node that is not in
`completed` and whose incoming-edge sources are all in `completed`.
(The source iterates a `HashMap` in unspecified order; the model iterates
in workflow declaration order.)  Note the source checks `completed` only
— in-flight nodes are NOT excluded. -/
def find_ready_nodes (core : DagCore) (completed : List NodeId) : List NodeId :=
  (core.nodes.filter (fun spec =>
    !(completed.contains spec.id) &&
    ((core.edges.filter (fun e => e.2 == spec.id)).all
      (fun e => completed.contains e.1)))).map (fun spec => spec.id)

/-- `WorkflowExecutor::collect_node_inputs`: start empty; if the node has
no inbound connections splat the initial-inputs sentinel entry; then for
each connection terminating here whose source node has recorded outputs
containing the source port, insert the value under `to_port`
(`HashMap::insert` overwrite = cons + first-match lookup, so the last
connection in declaration order wins). -/
def collectStep (nodeOutputs : List (NodeId × List (String × Value)))
    (node_id : NodeId) (inputs : List (String × Value)) (c : Connection) :
    List (String × Value) :=
  if c.to_node == node_id then
    match assocFind nodeOutputs c.from_node with
    | some outs =>
      match assocFind outs c.from_port with
      | some v => (c.to_port, v) :: inputs
      | none => inputs
    | none => inputs
  else inputs

/-- Body of `collect_node_inputs` proper (see `collectStep` for the
per-connection insert). -/
def collect_node_inputs (connections : List Connection)
    (nodeOutputs : List (NodeId × List (String × Value))) (node_id : NodeId) :
    List (String × Value) :=
  connections.foldl (collectStep nodeOutputs node_id)
    (if connections.any (fun c => c.to_node == node_id) then []
     else
       match assocFind nodeOutputs NodeId.nilId with
       | some initial => initial
       | none => [])

/-- Spawning one ready node (executor.rs lines 152-210): remove its
instance, collect its inputs, build its `NodeContext` with a fresh
cancellation token, emit `NodeStarted`, and push the `execute` task onto
`running`. -/
def spawnNode (core : DagCore) (s : DagState) (spec : NodeSpec) : DagState :=
  let inputs := collect_node_inputs core.connections s.nodeOutputs spec.id
  let ctx : NodeContext :=
    { node_id := spec.id, inputs := inputs, config := spec.config,
      cancellation := CancellationToken.new }
  { s with
    instances := s.instances.erase spec.id
    events := s.events ++ [.nodeStarted spec.id spec.node_type]
    contexts := s.contexts ++ [ctx]
    hooks := s.hooks ++ [(spec.id, .execHook)]
    running := s.running ++ [spec.id]
    maxRunningObserved := max s.maxRunningObserved (s.running.length + 1) }

/-- The spawn loop of `execute_dag` (lines 147-211): walk the ready list,
breaking when `running.len() >= max_parallel`; a ready node whose spec or
instance is missing aborts the run with `NodeNotFound` (the `?` on lines
153 and 156).  Returns the state reached together with the error, if
any — events already emitted stay on the bus. -/
def spawn_ready (core : DagCore) :
    List NodeId → DagState → DagState × Option FlowError
  | [], s => (s, none)
  | node_id :: rest, s =>
    if core.maxParallel ≤ s.running.length then (s, none)
    else
      match core.nodes.find? (fun spec => spec.id == node_id) with
      | none => (s, some (.workflow (.nodeNotFound (toString node_id))))
      | some spec =>
        if s.instances.contains node_id then
          spawn_ready core rest (spawnNode core s spec)
        else (s, some (.workflow (.nodeNotFound (toString node_id))))

/-- The id the next finished task hands back: `sched` picks which
element of `running` the `running.next().await` call yields. -/
def nextFinished (sched : Nat → Nat) (step : Nat) (s : DagState) : NodeId :=
  s.running.getD (sched step % s.running.length) NodeId.nilId

/-- Success handling (lines 224-237): remove the task, emit
`NodeCompleted`, record the outputs, insert into `completed`. -/
def completeOk (s : DagState) (node_id : NodeId)
    (outs : List (String × Value)) : DagState :=
  { s with
    running := s.running.erase node_id
    events := s.events ++ [.nodeCompleted node_id outs]
    nodeOutputs := (node_id, outs) :: s.nodeOutputs
    completed :=
      if s.completed.contains node_id then s.completed
      else node_id :: s.completed }

/-- Failure handling common part (lines 238-246): remove the task and
emit `NodeFailed`. -/
def completeErr (s : DagState) (node_id : NodeId) (e : String) : DagState :=
  { s with
    running := s.running.erase node_id
    events := s.events ++ [.nodeFailed node_id e] }

/-- The `HashSet::insert` into `completed` of the ContinueOnError branch
(line 257). -/
def markCompleted (s : DagState) (node_id : NodeId) : DagState :=
  { s with
    completed :=
      if s.completed.contains node_id then s.completed
      else node_id :: s.completed }

/-- The `ExecutionResult` built on normal exit (lines 272-277). -/
def mkResult (core : DagCore) (s : DagState) : ExecutionResult :=
  { outputs := s.nodeOutputs, completed_nodes := s.completed.length,
    total_nodes := core.nodes.length }

/-- The `loop` of `execute_dag` (lines 142-270): spawn the ready nodes,
exit successfully when nothing is running, otherwise let `sched` pick
which in-flight task `running.next().await` yields, and handle its
outcome — record outputs and `completed` on success; on failure emit
`NodeFailed` and branch on `on_error` (StopWorkflow and the unimplemented
RetryWorkflow abort, ContinueOnError marks the node completed without
outputs).  `fuel` bounds the iteration count of the model; exhaustion is
a model artifact distinct from every result the source produces. -/
def execute_dag_loop (core : DagCore)
    (behavior : NodeId → Except String (List (String × Value)))
    (sched : Nat → Nat) :
    Nat → Nat → DagState → DagState × Except FlowError ExecutionResult
  | 0, _, s => (s, .error (.execution "model fuel exhausted"))
  | fuel + 1, step, s =>
    match spawn_ready core (find_ready_nodes core s.completed) s with
    | (s1, some e) => (s1, .error e)
    | (s1, none) =>
      if s1.running.isEmpty then (s1, .ok (mkResult core s1))
      else
        match behavior (nextFinished sched step s1) with
        | .ok outs =>
          execute_dag_loop core behavior sched fuel (step + 1)
            (completeOk s1 (nextFinished sched step s1) outs)
        | .error e =>
          match core.onError with
          | .stopWorkflow =>
            (completeErr s1 (nextFinished sched step s1) e,
             .error (.execution
               s!"Node {nextFinished sched step s1} failed: {e}"))
          | .continueOnError =>
            execute_dag_loop core behavior sched fuel (step + 1)
              (markCompleted (completeErr s1 (nextFinished sched step s1) e)
                (nextFinished sched step s1))
          | .retryWorkflow _ =>
            (completeErr s1 (nextFinished sched step s1) e,
             .error (.execution
               s!"Node {nextFinished sched step s1} failed: {e}"))

/-- Edge construction of `WorkflowExecutor::build_graph` (lines 97-105):
one edge per connection after resolving both endpoints, failing with
`NodeNotFound` on a dangling endpoint. -/
def buildEdges (ids : List NodeId) :
    List Connection → Except WorkflowError (List (NodeId × NodeId))
  | [] => .ok []
  | c :: rest =>
    if ids.contains c.from_node then
      if ids.contains c.to_node then
        match buildEdges ids rest with
        | .ok es => .ok ((c.from_node, c.to_node) :: es)
        | .error e => .error e
      else .error (.nodeNotFound (toString c.to_node))
    else .error (.nodeNotFound (toString c.from_node))

/-- One Kahn step: a node with no incoming edge from the remaining set. -/
def hasNoIncoming (edges : List (NodeId × NodeId)) (remaining : List NodeId)
    (n : NodeId) : Bool :=
  !(edges.any (fun e => e.2 == n && remaining.contains e.1))

/-- Kahn elimination with explicit fuel. -/
def acyclicAux (edges : List (NodeId × NodeId)) :
    Nat → List NodeId → Bool
  | 0, remaining => remaining.isEmpty
  | k + 1, remaining =>
    if remaining.isEmpty then true
    else
      match remaining.find? (hasNoIncoming edges remaining) with
      | none => false
      | some n => acyclicAux edges k (remaining.erase n)

/-- `petgraph::algo::toposort(...).is_ok()`: a topological order exists
iff Kahn elimination empties the vertex set. -/
def isAcyclic (ids : List NodeId) (edges : List (NodeId × NodeId)) : Bool :=
  acyclicAux edges ids.length ids

/-- `WorkflowExecutor::build_graph` (lines 87-113): add the nodes, add
one edge per connection (dangling endpoints fail with `NodeNotFound`),
then reject with `CyclicDependency` when no topological order exists. -/
def build_graph (wf : Workflow) : Except WorkflowError (List (NodeId × NodeId)) :=
  match buildEdges (wf.nodes.map (fun spec => spec.id)) wf.connections with
  | .error e => .error e
  | .ok edges =>
    if isAcyclic (wf.nodes.map (fun spec => spec.id)) edges then .ok edges
    else .error .cyclicDependency

/-- Node instantiation in `execute` (lines 49-60): for each spec, ask the
registry for an instance (modelled by the oracle `createNode`) and call
`initialize()` (oracle `initB`), recording the hook; the first failure
aborts the run.  Duplicate ids collapse as in the `HashMap` keyed by id. -/
def instantiate_nodes
    (createNode : String → List (String × Value) → Except WorkflowError Unit)
    (initB : NodeId → Except String Unit) :
    List NodeSpec → List (NodeId × NodeHook) × Except FlowError (List NodeId)
  | [] => ([], .ok [])
  | spec :: rest =>
    match createNode spec.node_type spec.config with
    | .error e => ([], .error (.workflow e))
    | .ok _ =>
      match initB spec.id with
      | .error e =>
        ([(spec.id, .initHook)],
         .error (.execution s!"Node initialization failed: {e}"))
      | .ok _ =>
        match instantiate_nodes createNode initB rest with
        | (hooks, .error e) => ((spec.id, .initHook) :: hooks, .error e)
        | (hooks, .ok ids) =>
          ((spec.id, .initHook) :: hooks,
           .ok (if ids.contains spec.id then ids else spec.id :: ids))

/-- A `DagState` holding nothing. -/
def emptyDagState : DagState :=
  { completed := [], nodeOutputs := [], running := [], instances := [],
    events := [], contexts := [], hooks := [], maxRunningObserved := 0 }

/-- The state `execute_dag` starts from (lines 125-140): empty tables,
and the initial inputs stored under the `NodeId::nil()` sentinel when
non-empty.  The `WorkflowStarted` event was already emitted by
`execute`. -/
def initialDagState (wfId : Nat) (instances : List NodeId)
    (hooks : List (NodeId × NodeHook)) (initialInputs : List (String × Value)) :
    DagState :=
  { completed := [],
    nodeOutputs :=
      if initialInputs.isEmpty then [] else [(NodeId.nilId, initialInputs)],
    running := [], instances := instances,
    events := [.workflowStarted wfId], contexts := [], hooks := hooks,
    maxRunningObserved := 0 }

/-- The read-only loop data `execute` hands to `execute_dag`: the
construction-time parallelism bound and the projections of the workflow
the loop reads. -/
def coreOf (maxParallel : Nat) (wf : Workflow)
    (edges : List (NodeId × NodeId)) : DagCore :=
  { maxParallel := maxParallel, nodes := wf.nodes,
    connections := wf.connections, edges := edges,
    onError := wf.settings.on_error }

/-- Whether an `Except` is `ok` (`Result::is_ok`). -/
def isOkB {ε α : Type} : Except ε α → Bool
  | .ok _ => true
  | .error _ => false

/-- Appending the final `WorkflowCompleted{success: result.is_ok()}`
event (execute, lines 72-83). -/
def finishRun :
    DagState × Except FlowError ExecutionResult →
    DagState × Except FlowError ExecutionResult
  | (s, res) =>
    ({ s with events := s.events ++ [.workflowCompleted (isOkB res)] }, res)

/-- `WorkflowExecutor::execute` (lines 26-84): emit `WorkflowStarted`,
build the graph, instantiate and initialize the nodes — NOTE: a failure
in either step returns through `?` BEFORE the `WorkflowCompleted`
emission — then run the DAG and emit `WorkflowCompleted{success}`.
`maxParallel` is the bound stored in `WorkflowExecutor` at construction
(`WorkflowExecutor::new`). -/
def execute (maxParallel : Nat) (wf : Workflow)
    (createNode : String → List (String × Value) → Except WorkflowError Unit)
    (initB : NodeId → Except String Unit)
    (behavior : NodeId → Except String (List (String × Value)))
    (sched : Nat → Nat)
    (initialInputs : List (String × Value)) (fuel : Nat) :
    DagState × Except FlowError ExecutionResult :=
  match build_graph wf with
  | .error e =>
    ({ emptyDagState with events := [.workflowStarted wf.id] },
     .error (.workflow e))
  | .ok edges =>
    match instantiate_nodes createNode initB wf.nodes with
    | (hooks, .error e) =>
      ({ emptyDagState with events := [.workflowStarted wf.id], hooks := hooks },
       .error e)
    | (hooks, .ok instances) =>
      finishRun (execute_dag_loop (coreOf maxParallel wf edges)
        behavior sched fuel 0
        (initialDagState wf.id instances hooks initialInputs))

/-- `RuntimeConfig` from runtime.rs. -/
structure RuntimeConfig : Type where
  max_parallel_nodes : Nat
  event_buffer_size : Nat

/-- The `Default` impl of `RuntimeConfig`: parallelism bound 10. -/
def RuntimeConfig.defaultConfig : RuntimeConfig :=
  { max_parallel_nodes := 10, event_buffer_size := 1000 }

/-! Concrete runs used by the claim-level scenarios: a registry that
builds every node type, initialization that always succeeds, and simple
behavior and schedule oracles. -/

/-- A registry oracle whose `create_node` always succeeds. -/
def okCreate : String → List (String × Value) → Except WorkflowError Unit :=
  fun _ _ => .ok ()

/-- An `initialize()` oracle that always succeeds. -/
def okInit : NodeId → Except String Unit := fun _ => .ok ()

/-- Workflow settings with the given error policy and otherwise the
defaults of workflow.rs. -/
def mkSettings (e : ErrorHandling) : WorkflowSettings :=
  { max_execution_time_ms := none, max_parallel_nodes := 10, on_error := e }

/-- The diamond scenario of the spec: `A → B, A → C, B → D, C → D`
(ids 1-4), default StopWorkflow policy. -/
def diamondWorkflow : Workflow :=
  { id := 100, name := "diamond", description := none,
    nodes := [⟨1, "task", []⟩, ⟨2, "task", []⟩, ⟨3, "task", []⟩, ⟨4, "task", []⟩],
    connections := [⟨1, "out", 2, "in"⟩, ⟨1, "out", 3, "in"⟩,
                    ⟨2, "out", 4, "in"⟩, ⟨3, "out", 4, "in"⟩],
    settings := mkSettings .stopWorkflow }

/-- A behavior oracle under which every node succeeds with no outputs. -/
def allOk : NodeId → Except String (List (String × Value)) := fun _ => .ok []

/-- A behavior oracle under which node 1 fails and every other node
succeeds. -/
def failFirst : NodeId → Except String (List (String × Value)) :=
  fun n => if n == 1 then .error "boom" else .ok []

/-- The schedule under which `running.next().await` always yields the
oldest in-flight task first. -/
def schedZero : Nat → Nat := fun _ => 0

/-- The two-node cycle `A → B → A` of the spec's cycle scenario. -/
def cycleWorkflow : Workflow :=
  { id := 100, name := "cycle", description := none,
    nodes := [⟨1, "task", []⟩, ⟨2, "task", []⟩],
    connections := [⟨1, "x", 2, "y"⟩, ⟨2, "x", 1, "y"⟩],
    settings := mkSettings .stopWorkflow }

/-- Two independent root nodes, no connections, StopWorkflow policy. -/
def twoRootsWorkflow : Workflow :=
  { id := 100, name := "tworoots", description := none,
    nodes := [⟨1, "task", []⟩, ⟨2, "task", []⟩], connections := [],
    settings := mkSettings .stopWorkflow }

/-- The two-node chain `A → B` wired `a_out → b_in`, with the given
error policy. -/
def chainWorkflow (e : ErrorHandling) : Workflow :=
  { id := 100, name := "chain", description := none,
    nodes := [⟨1, "task", []⟩, ⟨2, "task", []⟩],
    connections := [⟨1, "a_out", 2, "b_in"⟩],
    settings := mkSettings e }

/-- The empty workflow: no nodes, no connections. -/
def emptyWorkflow : Workflow :=
  { id := 100, name := "empty", description := none, nodes := [],
    connections := [], settings := mkSettings .stopWorkflow }

/-- The source value of one connection for `collect_node_inputs`:
`outputs[from_node][from_port]`, if present. -/
def connContribution (nodeOutputs : List (NodeId × List (String × Value)))
    (c : Connection) : Option Value :=
  match assocFind nodeOutputs c.from_node with
  | some outs => assocFind outs c.from_port
  | none => none

/-- The value the LAST connection in declaration order targeting
`(node_id, port)` contributes, among those whose source node and port are
present in the outputs table. -/
def lastContribution (nodeOutputs : List (NodeId × List (String × Value)))
    (node_id : NodeId) (port : String) : List Connection → Option Value
  | [] => none
  | c :: rest =>
    match lastContribution nodeOutputs node_id port rest with
    | some v => some v
    | none =>
      if c.to_node == node_id && c.to_port == port then
        connContribution nodeOutputs c
      else none

/-- Number of `NodeStarted(n)` events in a trace. -/
def startedCount (n : NodeId) (evs : List ExecutionEvent) : Nat :=
  evs.countP (fun e =>
    match e with
    | .nodeStarted m _ => m == n
    | _ => false)

/-- Number of terminal (`NodeCompleted(n)` or `NodeFailed(n)`) events in
a trace. -/
def terminalCount (n : NodeId) (evs : List ExecutionEvent) : Nat :=
  evs.countP (fun e =>
    match e with
    | .nodeCompleted m _ => m == n
    | .nodeFailed m _ => m == n
    | _ => false)

/-- Ghost observations preserved by every transition of the run: all
contexts carry the fresh untriggered token, and no `shutdown` hook is
ever recorded. -/
structure GhostInv (s : DagState) : Prop where
  tokens_new : ∀ c ∈ s.contexts, c.cancellation = CancellationToken.new
  no_shutdown : ∀ hk ∈ s.hooks, hk.2 ≠ NodeHook.shutdownHook

/-- The parallelism bound: `running` never exceeds `max_parallel`, and
neither does the largest cardinality ever observed. -/
structure BoundInv (core : DagCore) (s : DagState) : Prop where
  run_bound : s.running.length ≤ core.maxParallel
  obs_bound : s.maxRunningObserved ≤ core.maxParallel

/-- The loop invariant of `execute_dag`: in-flight task ids are unique
and not among the remaining instances, every started node is either
terminal (exactly once) or in flight, terminal events match the behavior
oracle, failed nodes reaching a recursion point are settled, and the
outputs table holds only the sentinel entry and oracle-approved
outputs. -/
structure DagInv (behavior : NodeId → Except String (List (String × Value)))
    (s : DagState) : Prop where
  run_nodup : s.running.Nodup
  inst_nodup : s.instances.Nodup
  run_inst_disjoint : ∀ n ∈ s.running, n ∉ s.instances
  count_eq : ∀ n, startedCount n s.events =
    terminalCount n s.events + (if n ∈ s.running then 1 else 0)
  running_started : ∀ n ∈ s.running, ∃ t, ExecutionEvent.nodeStarted n t ∈ s.events
  completed_started : ∀ n ∈ s.completed, ∃ t, ExecutionEvent.nodeStarted n t ∈ s.events
  failed_completed : ∀ n e, ExecutionEvent.nodeFailed n e ∈ s.events → n ∈ s.completed
  completed_event_ok : ∀ n outs, ExecutionEvent.nodeCompleted n outs ∈ s.events →
    behavior n = .ok outs
  failed_event_err : ∀ n e, ExecutionEvent.nodeFailed n e ∈ s.events →
    ∃ msg, behavior n = .error msg
  outputs_ok : ∀ n outs, (n, outs) ∈ s.nodeOutputs →
    n = NodeId.nilId ∨ behavior n = .ok outs

theorem decodeByte_encodeByte (b : Fin 256) : decodeByte (encodeByte b) = some b := by
  have hden : ((b.val : ℕ) : ℚ).den = 1 := Rat.den_natCast _
  have hnum : ((b.val : ℕ) : ℚ).num = (b.val : ℤ) := Rat.num_natCast _
  have hlt : b.val < 256 := b.isLt
  have hcond : ((b.val : ℕ) : ℚ).den = 1 ∧ 0 ≤ ((b.val : ℕ) : ℚ).num ∧
      ((b.val : ℕ) : ℚ).num < 256 := by
    refine ⟨hden, ?_, ?_⟩ <;> rw [hnum] <;> omega
  simp only [encodeByte, decodeByte, hcond, dif_pos]
  exact congrArg some (Fin.ext (by simp [hnum]))

theorem decodeBytes_map_encodeByte (bs : List (Fin 256)) :
    decodeBytes (bs.map encodeByte) = some bs := by
  induction bs with
  | nil => rfl
  | cons b rest ih => simp [decodeBytes, decodeByte_encodeByte, ih]

mutual

theorem deserialize_serializeValue (v : Value) (h : v.allFinite = true) :
    deserializeValue (serializeValue v) = some v := by
  cases v with
  | null => rfl
  | bool b => simp [serializeValue, deserializeValue]
  | number n =>
    cases n with
    | finite q => simp [serializeValue, deserializeValue, encodeF64, decodeF64]
    | nan => simp [Value.allFinite] at h
    | inf => simp [Value.allFinite] at h
    | negInf => simp [Value.allFinite] at h
  | string s => simp [serializeValue, deserializeValue]
  | bytes bs => simp [serializeValue, deserializeValue, decodeBytes_map_encodeByte]
  | json j => simp [serializeValue, deserializeValue]
  | array xs =>
    simp only [Value.allFinite] at h
    simp [serializeValue, deserializeValue, deserialize_serializeValueList xs h]
  | object fields =>
    simp only [Value.allFinite] at h
    simp [serializeValue, deserializeValue, deserialize_serializeValueObj fields h]

theorem deserialize_serializeValueList (xs : List Value)
    (h : allFiniteList xs = true) :
    deserializeValueList (serializeValueList xs) = some xs := by
  cases xs with
  | nil => rfl
  | cons v rest =>
    simp only [allFiniteList, Bool.and_eq_true] at h
    simp [serializeValueList, deserializeValueList,
      deserialize_serializeValue v h.1, deserialize_serializeValueList rest h.2]

theorem deserialize_serializeValueObj (fields : List (String × Value))
    (h : allFiniteObj fields = true) :
    deserializeValueObj (serializeValueObj fields) = some fields := by
  cases fields with
  | nil => rfl
  | cons kv rest =>
    obtain ⟨k, v⟩ := kv
    simp only [allFiniteObj, Bool.and_eq_true] at h
    simp [serializeValueObj, deserializeValueObj,
      deserialize_serializeValue v h.1, deserialize_serializeValueObj rest h.2]

end

/-- C8 counterexample: the wrapped round trip is NOT the identity on
every `Value`: a non-finite `Number` payload such as NaN serializes to
`{type: "Number", value: null}` (serde_json writes non-finite floats as
`null`) and deserialization then fails, because `f64` cannot be read
back from `null`. -/
theorem C8_nonfinite_counterexample :
    serializeValue (Value.number F64.nan) =
      .obj [("type", .str "Number"), ("value", .null)] ∧
    deserializeValue (serializeValue (Value.number F64.nan)) = none ∧
    serializeValue (Value.number F64.inf) =
      .obj [("type", .str "Number"), ("value", .null)] :=
  ⟨rfl, by simp [serializeValue, deserializeValue, encodeF64, decodeF64], rfl⟩

/-- C8 (amended): serializing a `Value` in the wrapped `{type, value}`
encoding and deserializing the result yields exactly the original value
for all eight variants, provided every `Number` payload at any depth is
a finite double (`Object` payloads are association lists here, so the
key-order caveat of the claim is subsumed by plain equality); a
non-finite `Number` is serialized as `null` and does not deserialize. -/
theorem C8_value_wrapped_roundtrip_finite (v : Value)
    (h : v.allFinite = true) :
    deserializeValue (serializeValue v) = some v :=
  deserialize_serializeValue v h

/-- Witness for C8: a composite value exercising `Object`, `Array`,
finite `Number`, `Bytes`, `Json`, `String`, `Bool` and `Null` round
trips to itself. -/
theorem C8_value_wrapped_roundtrip_finite_witness :
    (Value.object [("a", Value.number (F64.finite 3)),
      ("b", Value.array [Value.bool true, Value.null,
        Value.bytes [(255 : Fin 256)], Value.string "hi",
        Value.json (Jsonv.obj [("k", Jsonv.num 1)])])]).allFinite = true ∧
    deserializeValue (serializeValue
      (Value.object [("a", Value.number (F64.finite 3)),
        ("b", Value.array [Value.bool true, Value.null,
          Value.bytes [(255 : Fin 256)], Value.string "hi",
          Value.json (Jsonv.obj [("k", Jsonv.num 1)])])])) =
      some (Value.object [("a", Value.number (F64.finite 3)),
        ("b", Value.array [Value.bool true, Value.null,
          Value.bytes [(255 : Fin 256)], Value.string "hi",
          Value.json (Jsonv.obj [("k", Jsonv.num 1)])])]) :=
  ⟨rfl, C8_value_wrapped_roundtrip_finite _ rfl⟩

/-- C1 (code bug): the diamond `A→B, A→C, B→D, C→D` with parallelism
bound 2 and every node succeeding does NOT run to completion:
`find_ready_nodes` never excludes in-flight nodes, so after B completes
the still-running C is selected again, `node_instances.remove` finds
nothing, and the run aborts with `NodeNotFound(C)`; D is never started. -/
theorem C1_diamond_ready_set_bug :
    (execute 2 diamondWorkflow okCreate okInit allOk schedZero [] 10).2 =
      .error (.workflow (.nodeNotFound "3")) ∧
    (execute 2 diamondWorkflow okCreate okInit allOk schedZero [] 10).1.events =
      [.workflowStarted 100, .nodeStarted 1 "task", .nodeCompleted 1 [],
       .nodeStarted 2 "task", .nodeStarted 3 "task", .nodeCompleted 2 [],
       .workflowCompleted false] :=
  ⟨rfl, rfl⟩

/-- C2 (code bug): on a cyclic workflow, `execute` emits
`WorkflowStarted` and then returns `CyclicDependency` through the `?` on
`build_graph` BEFORE reaching the `WorkflowCompleted` emission, so the
run emits no `WorkflowCompleted` at all. -/
theorem C2_cycle_no_workflow_completed :
    execute 10 cycleWorkflow okCreate okInit allOk schedZero [] 10 =
      ({ emptyDagState with events := [.workflowStarted 100] },
       .error (.workflow .cyclicDependency)) :=
  rfl

/-- C7: executing the empty workflow with empty initial inputs succeeds
with `completed_nodes = 0`, `total_nodes = 0`, and the emitted
`WorkflowCompleted` carries `success = true`. -/
theorem C7_empty_workflow :
    (execute 10 emptyWorkflow okCreate okInit allOk schedZero [] 1).2 =
      .ok { outputs := [], completed_nodes := 0, total_nodes := 0 } ∧
    (execute 10 emptyWorkflow okCreate okInit allOk schedZero [] 1).1.events =
      [.workflowStarted 100, .workflowCompleted true] :=
  ⟨rfl, rfl⟩

/-- C3 counterexample: two independent nodes under StopWorkflow, node 1
failing while node 2 is still in flight.  Node 2 gets a `NodeStarted`
event but the loop returns before any terminal event for it is emitted,
so its result never surfaces — refuting "exactly one of
NodeCompleted(N) | NodeFailed(N) for every NodeStarted(N)". -/
theorem C3_counterexample_inflight_no_terminal :
    (execute 2 twoRootsWorkflow okCreate okInit failFirst schedZero [] 10).1.events =
      [.workflowStarted 100, .nodeStarted 1 "task", .nodeStarted 2 "task",
       .nodeFailed 1 "boom", .workflowCompleted false] ∧
    startedCount 2
      (execute 2 twoRootsWorkflow okCreate okInit failFirst schedZero [] 10).1.events = 1 ∧
    terminalCount 2
      (execute 2 twoRootsWorkflow okCreate okInit failFirst schedZero [] 10).1.events = 0 :=
  ⟨rfl, rfl, rfl⟩

/-- C4 counterexample: the chain `A → B` under ContinueOnError with A
failing.  B is scheduled, A is counted in `completed_nodes`, and
`outputs[A]` is absent — but the run returns `Ok` and the emitted
`WorkflowCompleted` carries `success = true`, refuting the claimed
`success:false`. -/
theorem C4_counterexample_success_true :
    (execute 10 (chainWorkflow .continueOnError) okCreate okInit failFirst
        schedZero [] 10).2 =
      .ok { outputs := [(2, [])], completed_nodes := 2, total_nodes := 2 } ∧
    (execute 10 (chainWorkflow .continueOnError) okCreate okInit failFirst
        schedZero [] 10).1.events =
      [.workflowStarted 100, .nodeStarted 1 "task", .nodeFailed 1 "boom",
       .nodeStarted 2 "task", .nodeCompleted 2 [], .workflowCompleted true] :=
  ⟨rfl, rfl⟩

theorem assocFind_foldl_collectStep
    (nodeOutputs : List (NodeId × List (String × Value))) (node_id : NodeId)
    (port : String) (connections : List Connection) :
    ∀ acc : List (String × Value),
      assocFind (connections.foldl (collectStep nodeOutputs node_id) acc) port =
        match lastContribution nodeOutputs node_id port connections with
        | some v => some v
        | none => assocFind acc port := by
  induction connections with
  | nil => intro acc; simp [lastContribution]
  | cons c cs ih =>
    intro acc
    simp only [List.foldl_cons, lastContribution]
    rw [ih]
    cases hcs : lastContribution nodeOutputs node_id port cs with
    | some v => simp
    | none =>
      simp only []
      unfold collectStep connContribution
      by_cases h1 : (c.to_node == node_id)
      · simp only [h1, if_true, Bool.true_and]
        cases h2 : assocFind nodeOutputs c.from_node with
        | none => simp
        | some outs =>
          cases h3 : assocFind outs c.from_port with
          | none => simp [h3]
          | some v =>
            by_cases h4 : (c.to_port == port)
            · simp [assocFind, h3, h4]
            · simp [assocFind, h3, h4]
      · simp [h1]

/-- C6: the inputs collected for a node map each port to the value of
the LAST connection in workflow declaration order targeting that port
whose source node has recorded outputs containing the source port;
connections whose source node or port is absent contribute nothing, and
when the node has no inbound connections the initial-inputs sentinel
entry is splatted instead.  In particular, for a chain `A → B` wired
`(a_out → b_in)`, B receives `b_in = outputs[A][a_out]`. -/
theorem C6_collect_inputs_last_wins (connections : List Connection)
    (nodeOutputs : List (NodeId × List (String × Value)))
    (node_id : NodeId) (port : String) (va : Value) :
    (assocFind (collect_node_inputs connections nodeOutputs node_id) port =
      match lastContribution nodeOutputs node_id port connections with
      | some v => some v
      | none =>
        if connections.any (fun c => c.to_node == node_id) then none
        else
          assocFind
            (match assocFind nodeOutputs NodeId.nilId with
             | some initial => initial
             | none => []) port) ∧
    assocFind (collect_node_inputs [⟨1, "a_out", 2, "b_in"⟩]
        [(1, [("a_out", va)])] 2) "b_in" = some va := by
  constructor
  · unfold collect_node_inputs
    rw [assocFind_foldl_collectStep]
    cases lastContribution nodeOutputs node_id port connections with
    | some v => simp
    | none =>
      by_cases h : connections.any (fun c => c.to_node == node_id)
      · simp [h, assocFind]
      · simp [h]
  · rfl

@[simp] theorem startedCount_nil (n : NodeId) : startedCount n [] = 0 := rfl

@[simp] theorem terminalCount_nil (n : NodeId) : terminalCount n [] = 0 := rfl

theorem startedCount_append (n : NodeId) (a b : List ExecutionEvent) :
    startedCount n (a ++ b) = startedCount n a + startedCount n b :=
  List.countP_append _ a b

theorem terminalCount_append (n : NodeId) (a b : List ExecutionEvent) :
    terminalCount n (a ++ b) = terminalCount n a + terminalCount n b :=
  List.countP_append _ a b

@[simp] theorem startedCount_started (n m : NodeId) (t : String) :
    startedCount n [ExecutionEvent.nodeStarted m t] = if m = n then 1 else 0 := by
  simp [startedCount, List.countP_cons]

@[simp] theorem startedCount_completedEv (n m : NodeId)
    (outs : List (String × Value)) :
    startedCount n [ExecutionEvent.nodeCompleted m outs] = 0 := by
  simp [startedCount, List.countP_cons]

@[simp] theorem startedCount_failedEv (n m : NodeId) (e : String) :
    startedCount n [ExecutionEvent.nodeFailed m e] = 0 := by
  simp [startedCount, List.countP_cons]

@[simp] theorem startedCount_wstarted (n : NodeId) (w : Nat) :
    startedCount n [ExecutionEvent.workflowStarted w] = 0 := by
  simp [startedCount, List.countP_cons]

@[simp] theorem startedCount_wcompleted (n : NodeId) (b : Bool) :
    startedCount n [ExecutionEvent.workflowCompleted b] = 0 := by
  simp [startedCount, List.countP_cons]

@[simp] theorem terminalCount_started (n m : NodeId) (t : String) :
    terminalCount n [ExecutionEvent.nodeStarted m t] = 0 := by
  simp [terminalCount, List.countP_cons]

@[simp] theorem terminalCount_completedEv (n m : NodeId)
    (outs : List (String × Value)) :
    terminalCount n [ExecutionEvent.nodeCompleted m outs] = if m = n then 1 else 0 := by
  simp [terminalCount, List.countP_cons]

@[simp] theorem terminalCount_failedEv (n m : NodeId) (e : String) :
    terminalCount n [ExecutionEvent.nodeFailed m e] = if m = n then 1 else 0 := by
  simp [terminalCount, List.countP_cons]

@[simp] theorem terminalCount_wstarted (n : NodeId) (w : Nat) :
    terminalCount n [ExecutionEvent.workflowStarted w] = 0 := by
  simp [terminalCount, List.countP_cons]

@[simp] theorem terminalCount_wcompleted (n : NodeId) (b : Bool) :
    terminalCount n [ExecutionEvent.workflowCompleted b] = 0 := by
  simp [terminalCount, List.countP_cons]

theorem spawnNode_ghost {s : DagState} (core : DagCore) (spec : NodeSpec)
    (h : GhostInv s) : GhostInv (spawnNode core s spec) := by
  constructor
  · intro c hc
    simp only [spawnNode, List.mem_append, List.mem_singleton] at hc
    rcases hc with hc | hc
    · exact h.tokens_new c hc
    · subst hc; rfl
  · intro hk hh
    simp only [spawnNode, List.mem_append, List.mem_singleton] at hh
    rcases hh with hh | hh
    · exact h.no_shutdown hk hh
    · subst hh; simp

theorem spawnNode_bound {s : DagState} (core : DagCore) (spec : NodeSpec)
    (h : BoundInv core s) (hcap : s.running.length < core.maxParallel) :
    BoundInv core (spawnNode core s spec) := by
  constructor
  · simp only [spawnNode, List.length_append, List.length_singleton]
    omega
  · simp only [spawnNode]
    exact max_le h.obs_bound hcap

theorem spawn_ready_ghost (core : DagCore) :
    ∀ (ready : List NodeId) (s : DagState), GhostInv s →
      GhostInv (spawn_ready core ready s).1 := by
  intro ready
  induction ready with
  | nil => intro s h; exact h
  | cons n rest ih =>
    intro s h
    simp only [spawn_ready]
    split
    · exact h
    · split
      · exact h
      · split
        · exact ih _ (spawnNode_ghost core _ h)
        · exact h

theorem spawn_ready_bound (core : DagCore) :
    ∀ (ready : List NodeId) (s : DagState), BoundInv core s →
      BoundInv core (spawn_ready core ready s).1 := by
  intro ready
  induction ready with
  | nil => intro s h; exact h
  | cons n rest ih =>
    intro s h
    simp only [spawn_ready]
    split
    · exact h
    · split
      · exact h
      · split
        next hcap _ _ =>
          exact ih _ (spawnNode_bound core _ h (by omega))
        · exact h

theorem completeOk_ghost {s : DagState} {node_id : NodeId}
    {outs : List (String × Value)} (h : GhostInv s) :
    GhostInv (completeOk s node_id outs) := by
  constructor
  · exact h.tokens_new
  · intro hk hh
    simp only [completeOk, List.mem_append, List.mem_singleton] at hh
    exact h.no_shutdown hk hh

theorem completeErr_ghost {s : DagState} {node_id : NodeId} {e : String}
    (h : GhostInv s) : GhostInv (completeErr s node_id e) := by
  constructor
  · exact h.tokens_new
  · intro hk hh
    exact h.no_shutdown hk hh

theorem markCompleted_ghost {s : DagState} {node_id : NodeId}
    (h : GhostInv s) : GhostInv (markCompleted s node_id) := by
  constructor
  · exact h.tokens_new
  · exact h.no_shutdown

theorem completeOk_bound {core : DagCore} {s : DagState} {node_id : NodeId}
    {outs : List (String × Value)} (h : BoundInv core s) :
    BoundInv core (completeOk s node_id outs) := by
  constructor
  · exact le_trans (s.running.erase_sublist node_id).length_le h.run_bound
  · exact h.obs_bound

theorem completeErr_bound {core : DagCore} {s : DagState} {node_id : NodeId}
    {e : String} (h : BoundInv core s) :
    BoundInv core (completeErr s node_id e) := by
  constructor
  · exact le_trans (s.running.erase_sublist node_id).length_le h.run_bound
  · exact h.obs_bound

theorem markCompleted_bound {core : DagCore} {s : DagState} {node_id : NodeId}
    (h : BoundInv core s) : BoundInv core (markCompleted s node_id) := by
  constructor
  · exact h.run_bound
  · exact h.obs_bound

theorem execute_dag_loop_ghost (core : DagCore)
    (behavior : NodeId → Except String (List (String × Value)))
    (sched : Nat → Nat) :
    ∀ (fuel step : Nat) (s : DagState), GhostInv s →
      GhostInv (execute_dag_loop core behavior sched fuel step s).1 := by
  intro fuel
  induction fuel with
  | zero => intro step s h; exact h
  | succ fuel ih =>
    intro step s h
    simp only [execute_dag_loop]
    split
    next sa e heq =>
      have ha := spawn_ready_ghost core (find_ready_nodes core s.completed) s h
      rw [heq] at ha
      exact ha
    next sa heq =>
      have ha : GhostInv sa := by
        have hg := spawn_ready_ghost core (find_ready_nodes core s.completed) s h
        rw [heq] at hg
        exact hg
      split
      · exact ha
      · split
        · exact ih _ _ (completeOk_ghost ha)
        · split
          · exact completeErr_ghost ha
          · exact ih _ _ (markCompleted_ghost (completeErr_ghost ha))
          · exact completeErr_ghost ha

theorem execute_dag_loop_bound (core : DagCore)
    (behavior : NodeId → Except String (List (String × Value)))
    (sched : Nat → Nat) :
    ∀ (fuel step : Nat) (s : DagState), BoundInv core s →
      BoundInv core (execute_dag_loop core behavior sched fuel step s).1 := by
  intro fuel
  induction fuel with
  | zero => intro step s h; exact h
  | succ fuel ih =>
    intro step s h
    simp only [execute_dag_loop]
    split
    next sa e heq =>
      have ha := spawn_ready_bound core (find_ready_nodes core s.completed) s h
      rw [heq] at ha
      exact ha
    next sa heq =>
      have ha : BoundInv core sa := by
        have hg := spawn_ready_bound core (find_ready_nodes core s.completed) s h
        rw [heq] at hg
        exact hg
      split
      · exact ha
      · split
        · exact ih _ _ (completeOk_bound ha)
        · split
          · exact completeErr_bound ha
          · exact ih _ _ (markCompleted_bound (completeErr_bound ha))
          · exact completeErr_bound ha

theorem instantiate_nodes_hooks
    (createNode : String → List (String × Value) → Except WorkflowError Unit)
    (initB : NodeId → Except String Unit) :
    ∀ specs : List NodeSpec, ∀ hk ∈ (instantiate_nodes createNode initB specs).1,
      hk.2 = NodeHook.initHook := by
  intro specs
  induction specs with
  | nil => intro hk h; simp [instantiate_nodes] at h
  | cons spec rest ih =>
    intro hk h
    simp only [instantiate_nodes] at h
    split at h
    · simp at h
    · split at h
      · simp only [List.mem_singleton] at h
        subst h; rfl
      · split at h
        next hooks e heq =>
          simp only [List.mem_cons] at h
          rcases h with h | h
          · subst h; rfl
          · refine ih hk ?_
            rw [heq]
            exact h
        next hooks ids heq =>
          simp only [List.mem_cons] at h
          rcases h with h | h
          · subst h; rfl
          · refine ih hk ?_
            rw [heq]
            exact h

theorem finishRun_ghost {p : DagState × Except FlowError ExecutionResult}
    (h : GhostInv p.1) : GhostInv (finishRun p).1 := by
  constructor
  · exact h.tokens_new
  · exact h.no_shutdown

theorem finishRun_obs {p : DagState × Except FlowError ExecutionResult} :
    (finishRun p).1.maxRunningObserved = p.1.maxRunningObserved := rfl

/-- Every state the executor can leave behind satisfies the ghost
invariant: all contexts carry the fresh untriggered token and no
`shutdown` hook is ever invoked. -/
theorem execute_ghost (maxParallel : Nat) (wf : Workflow)
    (createNode : String → List (String × Value) → Except WorkflowError Unit)
    (initB : NodeId → Except String Unit)
    (behavior : NodeId → Except String (List (String × Value)))
    (sched : Nat → Nat)
    (initialInputs : List (String × Value)) (fuel : Nat) :
    GhostInv (execute maxParallel wf createNode initB behavior sched
      initialInputs fuel).1 := by
  unfold execute
  split
  · exact ⟨by simp [emptyDagState], by simp [emptyDagState]⟩
  · split
    next hooks e heq =>
      constructor
      · intro c hc; simp [emptyDagState] at hc
      · intro hk hh
        have h2 : hk.2 = NodeHook.initHook := by
          refine instantiate_nodes_hooks createNode initB wf.nodes hk ?_
          rw [heq]
          exact hh
        rw [h2]
        simp
    next hooks instances heq =>
      refine finishRun_ghost (execute_dag_loop_ghost _ behavior sched fuel 0 _ ?_)
      constructor
      · intro c hc; simp [initialDagState] at hc
      · intro hk hh
        have h2 : hk.2 = NodeHook.initHook := by
          refine instantiate_nodes_hooks createNode initB wf.nodes hk ?_
          rw [heq]
          exact hh
        rw [h2]
        simp

/-- The ghost observation `maxRunningObserved` never exceeds the
construction-time parallelism bound. -/
theorem execute_bound (maxParallel : Nat) (wf : Workflow)
    (createNode : String → List (String × Value) → Except WorkflowError Unit)
    (initB : NodeId → Except String Unit)
    (behavior : NodeId → Except String (List (String × Value)))
    (sched : Nat → Nat)
    (initialInputs : List (String × Value)) (fuel : Nat) :
    (execute maxParallel wf createNode initB behavior sched
      initialInputs fuel).1.maxRunningObserved ≤ maxParallel := by
  unfold execute
  split
  · simp [emptyDagState]
  next edges hbg =>
    split
    next hooks e heq => simp [emptyDagState]
    next hooks instances heq =>
      rw [finishRun_obs]
      have hb := execute_dag_loop_bound (coreOf maxParallel wf edges)
        behavior sched fuel 0
        (initialDagState wf.id instances hooks initialInputs)
        ⟨Nat.zero_le _, Nat.zero_le _⟩
      exact hb.obs_bound

theorem spawnNode_dagInv
    {behavior : NodeId → Except String (List (String × Value))}
    {s : DagState} (core : DagCore) (spec : NodeSpec)
    (hinv : DagInv behavior s) (hmem : spec.id ∈ s.instances) :
    DagInv behavior (spawnNode core s spec) := by
  have hnotrun : spec.id ∉ s.running := fun hr => hinv.run_inst_disjoint _ hr hmem
  refine ⟨?_, ?_, ?_, ?_, ?_, ?_, ?_, ?_, ?_, ?_⟩
  · simp only [spawnNode]
    simp [List.nodup_append, hinv.run_nodup, hnotrun]
  · simp only [spawnNode]
    exact hinv.inst_nodup.erase _
  · intro n hn hcontra
    simp only [spawnNode, List.mem_append, List.mem_singleton] at hn hcontra
    have hni : n ∈ s.instances := List.mem_of_mem_erase hcontra
    have hne : n ≠ spec.id := ((hinv.inst_nodup.mem_erase_iff).mp hcontra).1
    rcases hn with hn | hn
    · exact hinv.run_inst_disjoint n hn hni
    · exact hne hn
  · intro n
    have h0 := hinv.count_eq n
    simp only [spawnNode, startedCount_append, terminalCount_append,
      startedCount_started, terminalCount_started, List.mem_append,
      List.mem_singleton]
    by_cases hns : spec.id = n
    · subst hns
      simp only [hnotrun, if_false, false_or, if_pos rfl] at h0 ⊢
      simp [h0]
    · have hns2 : ¬(n = spec.id) := fun hh => hns hh.symm
      simp only [hns, hns2, if_false, or_false] at h0 ⊢
      omega
  · intro n hn
    simp only [spawnNode, List.mem_append, List.mem_singleton] at hn ⊢
    rcases hn with hn | hn
    · rcases hinv.running_started n hn with ⟨t, ht⟩
      exact ⟨t, Or.inl ht⟩
    · subst hn
      exact ⟨spec.node_type, Or.inr rfl⟩
  · intro n hn
    simp only [spawnNode, List.mem_append, List.mem_singleton] at hn ⊢
    rcases hinv.completed_started n hn with ⟨t, ht⟩
    exact ⟨t, Or.inl ht⟩
  · intro n e h
    simp only [spawnNode, List.mem_append, List.mem_singleton] at h ⊢
    rcases h with h | h
    · exact hinv.failed_completed n e h
    · simp at h
  · intro n outs h
    simp only [spawnNode, List.mem_append, List.mem_singleton] at h
    rcases h with h | h
    · exact hinv.completed_event_ok n outs h
    · simp at h
  · intro n e h
    simp only [spawnNode, List.mem_append, List.mem_singleton] at h
    rcases h with h | h
    · exact hinv.failed_event_err n e h
    · simp at h
  · intro n outs h
    simp only [spawnNode] at h
    exact hinv.outputs_ok n outs h

theorem completeOk_dagInv
    {behavior : NodeId → Except String (List (String × Value))}
    {s : DagState} {node_id : NodeId} {outs : List (String × Value)}
    (hinv : DagInv behavior s) (hmem : node_id ∈ s.running)
    (hbeh : behavior node_id = .ok outs) :
    DagInv behavior (completeOk s node_id outs) := by
  refine ⟨?_, ?_, ?_, ?_, ?_, ?_, ?_, ?_, ?_, ?_⟩
  · simp only [completeOk]
    exact hinv.run_nodup.erase _
  · exact hinv.inst_nodup
  · intro n hn
    simp only [completeOk] at hn
    exact hinv.run_inst_disjoint n (List.mem_of_mem_erase hn)
  · intro n
    have h0 := hinv.count_eq n
    simp only [completeOk, startedCount_append, terminalCount_append,
      startedCount_completedEv, terminalCount_completedEv]
    by_cases hns : node_id = n
    · subst hns
      have hne : node_id ∉ s.running.erase node_id := fun hc =>
        (hinv.run_nodup.mem_erase_iff.mp hc).1 rfl
      simp only [hmem, if_pos rfl, hne, if_false] at h0 ⊢
      omega
    · have hns2 : ¬(n = node_id) := fun hh => hns hh.symm
      have hiff : n ∈ s.running.erase node_id ↔ n ∈ s.running :=
        List.mem_erase_of_ne hns2
      simp only [hns, hiff, if_false] at h0 ⊢
      omega
  · intro n hn
    simp only [completeOk] at hn ⊢
    rcases hinv.running_started n (List.mem_of_mem_erase hn) with ⟨t, ht⟩
    exact ⟨t, List.mem_append_left _ ht⟩
  · intro n hn
    simp only [completeOk] at hn ⊢
    split at hn
    · rcases hinv.completed_started n hn with ⟨t, ht⟩
      exact ⟨t, List.mem_append_left _ ht⟩
    · rcases List.mem_cons.mp hn with hn | hn
      · subst hn
        rcases hinv.running_started n hmem with ⟨t, ht⟩
        exact ⟨t, List.mem_append_left _ ht⟩
      · rcases hinv.completed_started n hn with ⟨t, ht⟩
        exact ⟨t, List.mem_append_left _ ht⟩
  · intro n e h
    simp only [completeOk] at h ⊢
    rcases List.mem_append.mp h with h | h
    · have hc := hinv.failed_completed n e h
      split
      · exact hc
      · exact List.mem_cons_of_mem _ hc
    · simp at h
  · intro n outs0 h
    simp only [completeOk] at h
    rcases List.mem_append.mp h with h | h
    · exact hinv.completed_event_ok n outs0 h
    · simp only [List.mem_singleton, ExecutionEvent.nodeCompleted.injEq] at h
      obtain ⟨rfl, rfl⟩ := h
      exact hbeh
  · intro n e h
    simp only [completeOk] at h
    rcases List.mem_append.mp h with h | h
    · exact hinv.failed_event_err n e h
    · simp at h
  · intro n outs0 h
    simp only [completeOk] at h
    rcases List.mem_cons.mp h with h | h
    · obtain ⟨rfl, rfl⟩ := Prod.mk.injEq .. ▸ h
      exact Or.inr hbeh
    · exact hinv.outputs_ok n outs0 h

theorem completeErrMark_dagInv
    {behavior : NodeId → Except String (List (String × Value))}
    {s : DagState} {node_id : NodeId} {e : String}
    (hinv : DagInv behavior s) (hmem : node_id ∈ s.running)
    (hbeh : behavior node_id = .error e) :
    DagInv behavior (markCompleted (completeErr s node_id e) node_id) := by
  refine ⟨?_, ?_, ?_, ?_, ?_, ?_, ?_, ?_, ?_, ?_⟩
  · simp only [markCompleted, completeErr]
    exact hinv.run_nodup.erase _
  · exact hinv.inst_nodup
  · intro n hn
    simp only [markCompleted, completeErr] at hn
    exact hinv.run_inst_disjoint n (List.mem_of_mem_erase hn)
  · intro n
    have h0 := hinv.count_eq n
    simp only [markCompleted, completeErr, startedCount_append,
      terminalCount_append, startedCount_failedEv, terminalCount_failedEv]
    by_cases hns : node_id = n
    · subst hns
      have hne : node_id ∉ s.running.erase node_id := fun hc =>
        (hinv.run_nodup.mem_erase_iff.mp hc).1 rfl
      simp only [hmem, if_pos rfl, hne, if_false] at h0 ⊢
      omega
    · have hns2 : ¬(n = node_id) := fun hh => hns hh.symm
      have hiff : n ∈ s.running.erase node_id ↔ n ∈ s.running :=
        List.mem_erase_of_ne hns2
      simp only [hns, hiff, if_false] at h0 ⊢
      omega
  · intro n hn
    simp only [markCompleted, completeErr] at hn ⊢
    rcases hinv.running_started n (List.mem_of_mem_erase hn) with ⟨t, ht⟩
    exact ⟨t, List.mem_append_left _ ht⟩
  · intro n hn
    simp only [markCompleted, completeErr] at hn ⊢
    split at hn
    · rcases hinv.completed_started n hn with ⟨t, ht⟩
      exact ⟨t, List.mem_append_left _ ht⟩
    · rcases List.mem_cons.mp hn with hn | hn
      · subst hn
        rcases hinv.running_started n hmem with ⟨t, ht⟩
        exact ⟨t, List.mem_append_left _ ht⟩
      · rcases hinv.completed_started n hn with ⟨t, ht⟩
        exact ⟨t, List.mem_append_left _ ht⟩
  · intro n e0 h
    simp only [markCompleted, completeErr] at h ⊢
    rcases List.mem_append.mp h with h | h
    · have hc := hinv.failed_completed n e0 h
      split
      · exact hc
      · exact List.mem_cons_of_mem _ hc
    · simp only [List.mem_singleton, ExecutionEvent.nodeFailed.injEq] at h
      obtain ⟨rfl, rfl⟩ := h
      split
      next hcont => exact List.elem_iff.mp hcont
      next hcont => exact List.mem_cons_self _ _
  · intro n outs0 h
    simp only [markCompleted, completeErr] at h
    rcases List.mem_append.mp h with h | h
    · exact hinv.completed_event_ok n outs0 h
    · simp at h
  · intro n e0 h
    simp only [markCompleted, completeErr] at h
    rcases List.mem_append.mp h with h | h
    · exact hinv.failed_event_err n e0 h
    · simp only [List.mem_singleton, ExecutionEvent.nodeFailed.injEq] at h
      obtain ⟨rfl, rfl⟩ := h
      exact ⟨_, hbeh⟩
  · intro n outs0 h
    simp only [markCompleted, completeErr] at h
    exact hinv.outputs_ok n outs0 h

theorem spawn_ready_dagInv (core : DagCore)
    {behavior : NodeId → Except String (List (String × Value))} :
    ∀ (ready : List NodeId) (s : DagState), DagInv behavior s →
      DagInv behavior (spawn_ready core ready s).1 := by
  intro ready
  induction ready with
  | nil => intro s h; exact h
  | cons n rest ih =>
    intro s h
    simp only [spawn_ready]
    split
    · exact h
    · split
      · exact h
      next spec hfind =>
        split
        next hcont =>
          have hp := List.find?_some hfind
          have hid : spec.id = n := eq_of_beq hp
          refine ih _ (spawnNode_dagInv core spec h ?_)
          rw [hid]
          exact List.elem_iff.mp hcont
        · exact h

theorem spawn_ready_completed (core : DagCore) :
    ∀ (ready : List NodeId) (s : DagState),
      ((spawn_ready core ready s).1).completed = s.completed := by
  intro ready
  induction ready with
  | nil => intro s; rfl
  | cons n rest ih =>
    intro s
    simp only [spawn_ready]
    split
    · rfl
    · split
      · rfl
      · split
        · rw [ih]
          rfl
        · rfl

theorem spawn_ready_running_le (core : DagCore) :
    ∀ (ready : List NodeId) (s : DagState),
      s.running.length ≤ ((spawn_ready core ready s).1).running.length := by
  intro ready
  induction ready with
  | nil => intro s; exact le_refl _
  | cons n rest ih =>
    intro s
    simp only [spawn_ready]
    split
    · exact le_refl _
    · split
      · exact le_refl _
      · split
        · refine le_trans ?_ (ih _)
          simp [spawnNode]
        · exact le_refl _

theorem spawn_ready_none_ready_empty (core : DagCore) :
    ∀ (ready : List NodeId) (s s1 : DagState),
      spawn_ready core ready s = (s1, none) → s1.running = [] →
      0 < core.maxParallel → ready = [] := by
  intro ready
  induction ready with
  | nil => intro s s1 _ _ _; rfl
  | cons n rest ih =>
    intro s s1 h hrun hpar
    exfalso
    simp only [spawn_ready] at h
    split at h
    next hcap =>
      obtain ⟨rfl, -⟩ := Prod.mk.injEq .. ▸ h
      rw [hrun] at hcap
      simp at hcap
      omega
    next hcap =>
      split at h
      · simp at h
      next spec hfind =>
        split at h
        next hcont =>
          have hle := spawn_ready_running_le core rest (spawnNode core s spec)
          rw [h] at hle
          simp only [hrun, List.length_nil, Nat.le_zero] at hle
          simp [spawnNode] at hle
        · simp at h

theorem nextFinished_mem (sched : Nat → Nat) (step : Nat) {s : DagState}
    (h : s.running ≠ []) : nextFinished sched step s ∈ s.running := by
  have hlen : 0 < s.running.length := List.length_pos.mpr h
  have hj : sched step % s.running.length < s.running.length :=
    Nat.mod_lt _ hlen
  rw [nextFinished, List.getD_eq_getElem s.running NodeId.nilId hj]
  exact List.getElem_mem hj

theorem execute_dag_loop_ok_inv (core : DagCore)
    (behavior : NodeId → Except String (List (String × Value)))
    (sched : Nat → Nat) :
    ∀ (fuel step : Nat) (s s1 : DagState) (r : ExecutionResult),
      execute_dag_loop core behavior sched fuel step s = (s1, .ok r) →
      DagInv behavior s →
      DagInv behavior s1 ∧ s1.running = [] ∧
      (0 < core.maxParallel → find_ready_nodes core s1.completed = []) ∧
      r = mkResult core s1 := by
  intro fuel
  induction fuel with
  | zero =>
    intro step s s1 r h hinv
    simp only [execute_dag_loop] at h
    simp at h
  | succ fuel ih =>
    intro step s s1 r h hinv
    simp only [execute_dag_loop] at h
    split at h
    · simp at h
    next sa heq =>
      have hainv : DagInv behavior sa := by
        have hx := spawn_ready_dagInv core (find_ready_nodes core s.completed) s hinv
        rw [heq] at hx
        exact hx
      have hacomp : sa.completed = s.completed := by
        have hx := spawn_ready_completed core (find_ready_nodes core s.completed) s
        rw [heq] at hx
        exact hx
      split at h
      next hempty =>
        injection h with h1 h2
        subst h1
        injection h2 with h3
        subst h3
        refine ⟨hainv, List.isEmpty_iff.mp hempty, ?_, rfl⟩
        intro hpar
        rw [hacomp]
        exact spawn_ready_none_ready_empty core _ s sa heq
          (List.isEmpty_iff.mp hempty) hpar
      next hempty =>
        have hne : sa.running ≠ [] := by
          intro hc
          rw [hc] at hempty
          simp at hempty
        have hmem := nextFinished_mem sched step hne
        split at h
        next outs hbeh =>
          exact ih (step + 1) _ s1 r h (completeOk_dagInv hainv hmem hbeh)
        next e hbeh =>
          split at h
          · simp at h
          · exact ih (step + 1) _ s1 r h (completeErrMark_dagInv hainv hmem hbeh)
          · simp at h

/-- C5 counterexample: in the StopWorkflow run in which node 1 fails
while node 2 is still in flight, the run ends in failure yet the
cancellation token in node 2's `NodeContext` (and node 1's) is still
untriggered — there is no run-level root token it could derive from,
refuting the claim that in-flight tokens are triggered on failure. -/
theorem C5_counterexample_tokens_untriggered :
    isOkB (execute 2 twoRootsWorkflow okCreate okInit failFirst schedZero [] 10).2
      = false ∧
    (execute 2 twoRootsWorkflow okCreate okInit failFirst schedZero [] 10).1.contexts.map
      (fun c => (c.node_id, c.cancellation.cancelled)) = [(1, false), (2, false)] :=
  ⟨rfl, rfl⟩

theorem instantiate_nodes_nodup
    (createNode : String → List (String × Value) → Except WorkflowError Unit)
    (initB : NodeId → Except String Unit) :
    ∀ (specs : List NodeSpec) (hooks : List (NodeId × NodeHook))
      (ids : List NodeId),
      instantiate_nodes createNode initB specs = (hooks, .ok ids) →
      ids.Nodup := by
  intro specs
  induction specs with
  | nil =>
    intro hooks ids h
    simp only [instantiate_nodes] at h
    injection h with h1 h2
    injection h2 with h3
    rw [← h3]
    simp
  | cons spec rest ih =>
    intro hooks ids h
    simp only [instantiate_nodes] at h
    split at h
    · simp at h
    · split at h
      · simp at h
      · split at h
        next hooks2 e heq => simp at h
        next hooks2 ids2 heq =>
          injection h with h1 h2
          injection h2 with h3
          rw [← h3]
          have hnd := ih hooks2 ids2 heq
          split
          · exact hnd
          next hcont =>
            refine List.nodup_cons.mpr ⟨?_, hnd⟩
            intro hm
            exact hcont (List.elem_iff.mpr hm)

theorem initialDagState_dagInv
    {behavior : NodeId → Except String (List (String × Value))}
    (wfId : Nat) (instances : List NodeId)
    (hooks : List (NodeId × NodeHook)) (initialInputs : List (String × Value))
    (hnd : instances.Nodup) :
    DagInv behavior (initialDagState wfId instances hooks initialInputs) := by
  refine ⟨?_, ?_, ?_, ?_, ?_, ?_, ?_, ?_, ?_, ?_⟩
  · simp [initialDagState]
  · simpa [initialDagState] using hnd
  · intro n hn; simp [initialDagState] at hn
  · intro n; simp [initialDagState]
  · intro n hn; simp [initialDagState] at hn
  · intro n hn; simp [initialDagState] at hn
  · intro n e h; simp [initialDagState] at h
  · intro n outs h; simp [initialDagState] at h
  · intro n e h; simp [initialDagState] at h
  · intro n outs h
    simp only [initialDagState] at h
    split at h
    · simp at h
    · simp only [List.mem_singleton, Prod.mk.injEq] at h
      exact Or.inl h.1

theorem assocFind_eq_none {κ α : Type} [BEq κ] [LawfulBEq κ]
    (m : List (κ × α)) (k : κ) (h : ∀ v, (k, v) ∉ m) :
    assocFind m k = none := by
  induction m with
  | nil => rfl
  | cons p rest ih =>
    simp only [assocFind]
    by_cases hp : (p.1 == k) = true
    · exfalso
      have hk : p.1 = k := eq_of_beq hp
      refine h p.2 ?_
      have hpk : (k, p.2) = p := by
        rw [← hk]
      rw [hpk]
      exact List.mem_cons_self _ _
    · simp only [hp, if_false]
      exact ih (fun v hv => h v (List.mem_cons_of_mem _ hv))

theorem buildEdges_ok (ids : List NodeId) :
    ∀ (conns : List Connection) (es : List (NodeId × NodeId)),
      buildEdges ids conns = .ok es →
      es = conns.map (fun c => (c.from_node, c.to_node)) := by
  intro conns
  induction conns with
  | nil =>
    intro es h
    simp only [buildEdges] at h
    injection h with h1
    rw [← h1]
    simp
  | cons c rest ih =>
    intro es h
    simp only [buildEdges] at h
    split at h
    · split at h
      · split at h
        next es2 heq =>
          injection h with h1
          rw [← h1, List.map_cons]
          rw [ih es2 heq]
        · simp at h
      · simp at h
    · simp at h

theorem build_graph_edges (wf : Workflow) (es : List (NodeId × NodeId))
    (h : build_graph wf = .ok es) :
    es = wf.connections.map (fun c => (c.from_node, c.to_node)) := by
  simp only [build_graph] at h
  split at h
  · simp at h
  next es2 heq =>
    split at h
    · injection h with h1
      rw [← h1]
      exact buildEdges_ok _ _ _ heq
    · simp at h

theorem find_ready_nodes_all_blocked {core : DagCore} {completed : List NodeId}
    (h : find_ready_nodes core completed = []) (spec : NodeSpec)
    (hspec : spec ∈ core.nodes) (hnc : spec.id ∉ completed)
    (hpreds : ∀ e ∈ core.edges, e.2 = spec.id → e.1 ∈ completed) : False := by
  unfold find_ready_nodes at h
  rw [List.map_eq_nil_iff, List.filter_eq_nil_iff] at h
  refine h spec hspec ?_
  rw [Bool.and_eq_true]
  constructor
  · rw [Bool.not_eq_true']
    cases hcb : completed.contains spec.id with
    | false => rfl
    | true => exact absurd (List.elem_iff.mp hcb) hnc
  · rw [List.all_eq_true]
    intro e he
    rw [List.mem_filter] at he
    obtain ⟨he1, he2⟩ := he
    exact List.elem_iff.mpr (hpreds e he1 (eq_of_beq he2))

end FlowEngine

namespace FlowEngine

theorem execute_ok_destruct (maxParallel : Nat) (wf : Workflow)
    (createNode : String → List (String × Value) → Except WorkflowError Unit)
    (initB : NodeId → Except String Unit)
    (behavior : NodeId → Except String (List (String × Value)))
    (sched : Nat → Nat)
    (initialInputs : List (String × Value)) (fuel : Nat)
    (sf : DagState) (r : ExecutionResult)
    (h : execute maxParallel wf createNode initB behavior sched initialInputs fuel
      = (sf, .ok r)) :
    ∃ (edges : List (NodeId × NodeId)) (hooks : List (NodeId × NodeHook))
      (instances : List NodeId) (sl : DagState),
      build_graph wf = .ok edges ∧
      instantiate_nodes createNode initB wf.nodes = (hooks, .ok instances) ∧
      execute_dag_loop (coreOf maxParallel wf edges) behavior sched fuel 0
        (initialDagState wf.id instances hooks initialInputs) = (sl, .ok r) ∧
      sf = { sl with events := sl.events ++ [.workflowCompleted true] } := by
  unfold execute at h
  split at h
  · simp at h
  next edges hbg =>
    split at h
    next hooks e heq => simp at h
    next hooks instances heq =>
      rcases hl : execute_dag_loop (coreOf maxParallel wf edges) behavior sched
        fuel 0 (initialDagState wf.id instances hooks initialInputs) with ⟨sl, res⟩
      rw [hl] at h
      simp only [finishRun] at h
      injection h with h1 h2
      subst h2
      refine ⟨edges, hooks, instances, sl, hbg, heq, hl, ?_⟩
      rw [← h1]
      rfl

end FlowEngine

namespace FlowEngine

/-- C3 (amended): in every run whose result is `Ok` — in particular
failure-free runs and runs under ContinueOnError — the number of
`NodeStarted(n)` events equals the number of terminal
(`NodeCompleted(n)`/`NodeFailed(n)`) events for every node `n`, i.e.,
every started node receives exactly one terminal event.  (The original
claim fails for runs a StopWorkflow failure ends while tasks are in
flight; see the counterexample.) -/
theorem C3_amended_terminal_pairing (maxParallel : Nat) (wf : Workflow)
    (createNode : String → List (String × Value) → Except WorkflowError Unit)
    (initB : NodeId → Except String Unit)
    (behavior : NodeId → Except String (List (String × Value)))
    (sched : Nat → Nat)
    (initialInputs : List (String × Value)) (fuel : Nat)
    (r : ExecutionResult) (n : NodeId)
    (hok : (execute maxParallel wf createNode initB behavior sched
      initialInputs fuel).2 = .ok r) :
    startedCount n (execute maxParallel wf createNode initB behavior sched
        initialInputs fuel).1.events =
      terminalCount n (execute maxParallel wf createNode initB behavior sched
        initialInputs fuel).1.events := by
  rcases hE : execute maxParallel wf createNode initB behavior sched
    initialInputs fuel with ⟨sf, res⟩
  rw [hE] at hok
  simp only at hok
  subst hok
  obtain ⟨edges, hooks, instances, sl, hbg, hin, hl, hsf⟩ :=
    execute_ok_destruct maxParallel wf createNode initB behavior sched
      initialInputs fuel sf r hE
  obtain ⟨hfin, hrun, hready, hr⟩ :=
    execute_dag_loop_ok_inv (coreOf maxParallel wf edges) behavior sched
      fuel 0 (initialDagState wf.id instances hooks initialInputs) sl r hl
      (initialDagState_dagInv wf.id instances hooks initialInputs
        (instantiate_nodes_nodup createNode initB wf.nodes hooks instances hin))
  have hcnt := hfin.count_eq n
  rw [hrun] at hcnt
  simp only [List.not_mem_nil, if_false] at hcnt
  rw [hsf]
  simp [startedCount_append, terminalCount_append, hcnt]

/-- Witness for C3: the ContinueOnError chain run returns Ok and node 1
has exactly as many started as terminal events. -/
theorem C3_amended_terminal_pairing_witness :
    (execute 10 (chainWorkflow .continueOnError) okCreate okInit failFirst
        schedZero [] 10).2 =
      .ok { outputs := [(2, [])], completed_nodes := 2, total_nodes := 2 } ∧
    startedCount 1 (execute 10 (chainWorkflow .continueOnError) okCreate okInit
        failFirst schedZero [] 10).1.events =
      terminalCount 1 (execute 10 (chainWorkflow .continueOnError) okCreate
        okInit failFirst schedZero [] 10).1.events :=
  ⟨rfl, C3_amended_terminal_pairing 10 (chainWorkflow .continueOnError) okCreate okInit
    failFirst schedZero [] 10
    { outputs := [(2, [])], completed_nodes := 2, total_nodes := 2 } 1 rfl⟩

/-- C4 (amended): under ContinueOnError, in a run returning `Ok`, a node
`A` that emitted `NodeFailed` is in `completed` (and
`completed_nodes` counts that set), `outputs[A]` is absent from the
`ExecutionResult`, every node `B` whose predecessors are all settled —
in particular a `B` depending only on the failed `A` — is scheduled and
settled, and the final event is `WorkflowCompleted` carrying
`success = true` (not `success:false` as originally claimed). -/
theorem C4_amended_continue_on_error (maxParallel : Nat) (wf : Workflow)
    (createNode : String → List (String × Value) → Except WorkflowError Unit)
    (initB : NodeId → Except String Unit)
    (behavior : NodeId → Except String (List (String × Value)))
    (sched : Nat → Nat)
    (initialInputs : List (String × Value)) (fuel : Nat)
    (r : ExecutionResult) (A : NodeId) (errA : String) (B : NodeSpec)
    (hok : (execute maxParallel wf createNode initB behavior sched
      initialInputs fuel).2 = .ok r)
    (hpar : 0 < maxParallel)
    (hfail : ExecutionEvent.nodeFailed A errA ∈
      (execute maxParallel wf createNode initB behavior sched
        initialInputs fuel).1.events)
    (hAnil : A ≠ NodeId.nilId)
    (hB : B ∈ wf.nodes)
    (hBpreds : ∀ c ∈ wf.connections, c.to_node = B.id →
      c.from_node ∈ (execute maxParallel wf createNode initB behavior sched
        initialInputs fuel).1.completed) :
    A ∈ (execute maxParallel wf createNode initB behavior sched
      initialInputs fuel).1.completed ∧
    r.completed_nodes = (execute maxParallel wf createNode initB behavior sched
      initialInputs fuel).1.completed.length ∧
    assocFind r.outputs A = none ∧
    B.id ∈ (execute maxParallel wf createNode initB behavior sched
      initialInputs fuel).1.completed ∧
    (∃ t, ExecutionEvent.nodeStarted B.id t ∈
      (execute maxParallel wf createNode initB behavior sched
        initialInputs fuel).1.events) ∧
    (execute maxParallel wf createNode initB behavior sched
      initialInputs fuel).1.events.getLast? =
      some (.workflowCompleted true) := by
  rcases hE : execute maxParallel wf createNode initB behavior sched
    initialInputs fuel with ⟨sf, res⟩
  rw [hE] at hok hfail hBpreds
  simp only at hok hfail hBpreds ⊢
  subst hok
  obtain ⟨edges, hooks, instances, sl, hbg, hin, hl, hsf⟩ :=
    execute_ok_destruct maxParallel wf createNode initB behavior sched
      initialInputs fuel sf r hE
  obtain ⟨hfin, hrun, hready, hr⟩ :=
    execute_dag_loop_ok_inv (coreOf maxParallel wf edges) behavior sched
      fuel 0 (initialDagState wf.id instances hooks initialInputs) sl r hl
      (initialDagState_dagInv wf.id instances hooks initialInputs
        (instantiate_nodes_nodup createNode initB wf.nodes hooks instances hin))
  subst hsf
  simp only at hfail hBpreds ⊢
  have hfail2 : ExecutionEvent.nodeFailed A errA ∈ sl.events := by
    rcases List.mem_append.mp hfail with hx | hx
    · exact hx
    · simp at hx
  have hAcomp : A ∈ sl.completed := hfin.failed_completed A errA hfail2
  obtain ⟨msg, hbeh⟩ := hfin.failed_event_err A errA hfail2
  have hBcomp : B.id ∈ sl.completed := by
    by_contra hnot
    refine find_ready_nodes_all_blocked (hready hpar) B hB hnot ?_
    intro e he hto
    have he2 : e ∈ wf.connections.map (fun c => (c.from_node, c.to_node)) := by
      rw [← build_graph_edges wf edges hbg]
      exact he
    rw [List.mem_map] at he2
    obtain ⟨c, hc, hce⟩ := he2
    have hfrom : e.1 = c.from_node := by rw [← hce]
    have hton : c.to_node = B.id := by
      rw [← hto, ← hce]
    rw [hfrom]
    exact hBpreds c hc hton
  refine ⟨hAcomp, ?_, ?_, hBcomp, ?_, ?_⟩
  · rw [hr]
    simp [mkResult]
  · have houts : r.outputs = sl.nodeOutputs := by
      rw [hr]
      simp [mkResult]
    rw [houts]
    refine assocFind_eq_none sl.nodeOutputs A ?_
    intro v hv
    rcases hfin.outputs_ok A v hv with hx | hx
    · exact hAnil hx
    · rw [hbeh] at hx
      exact Except.noConfusion hx
  · obtain ⟨t, ht⟩ := hfin.completed_started B.id hBcomp
    exact ⟨t, List.mem_append_left _ ht⟩
  · exact List.getLast?_concat _

/-- Witness for C4: the concrete chain run `A(fails) -> B` under
ContinueOnError, instantiating every hypothesis of the amended claim. -/
theorem C4_amended_continue_on_error_witness :
    0 < 10 ∧
    ((1 : NodeId) ∈ (execute 10 (chainWorkflow .continueOnError) okCreate okInit
        failFirst schedZero [] 10).1.completed ∧
    (ExecutionResult.mk [(2, [])] 2 2).completed_nodes =
      (execute 10 (chainWorkflow .continueOnError) okCreate okInit
        failFirst schedZero [] 10).1.completed.length ∧
    assocFind (ExecutionResult.mk [(2, [])] 2 2).outputs 1 = none ∧
    (NodeSpec.mk 2 "task" []).id ∈ (execute 10 (chainWorkflow .continueOnError)
        okCreate okInit failFirst schedZero [] 10).1.completed ∧
    (∃ t, ExecutionEvent.nodeStarted (NodeSpec.mk 2 "task" []).id t ∈
      (execute 10 (chainWorkflow .continueOnError) okCreate okInit
        failFirst schedZero [] 10).1.events) ∧
    (execute 10 (chainWorkflow .continueOnError) okCreate okInit
        failFirst schedZero [] 10).1.events.getLast? =
      some (.workflowCompleted true)) :=
  ⟨by decide,
   C4_amended_continue_on_error 10 (chainWorkflow .continueOnError) okCreate okInit
     failFirst schedZero [] 10 (ExecutionResult.mk [(2, [])] 2 2) 1 "boom"
     (NodeSpec.mk 2 "task" []) rfl (by decide)
     (by
       have h : (execute 10 (chainWorkflow .continueOnError) okCreate okInit
           failFirst schedZero [] 10).1.events =
           [.workflowStarted 100, .nodeStarted 1 "task", .nodeFailed 1 "boom",
            .nodeStarted 2 "task", .nodeCompleted 2 [],
            .workflowCompleted true] := rfl
       rw [h]
       exact List.mem_cons_of_mem _ (List.mem_cons_of_mem _
         (List.mem_cons_self _ _)))
     (by decide)
     (List.mem_cons_of_mem _ (List.mem_cons_self _ _))
     (by
       intro c hc hto
       have h : (execute 10 (chainWorkflow .continueOnError) okCreate okInit
           failFirst schedZero [] 10).1.completed = [2, 1] := rfl
       rw [h]
       obtain rfl := List.mem_singleton.mp hc
       exact List.mem_cons_of_mem _ (List.mem_cons_self _ _))⟩

/-- C5 (amended): every `NodeContext` the executor builds carries the
freshly created cancellation token `CancellationToken::new()`, which is
untriggered and tied to no run-level root token; the executor never
cancels any token.  (The original claim — a root token from which
per-node tokens derive and which trips them on failure — fails; see the
counterexample.) -/
theorem C5_amended_fresh_tokens (maxParallel : Nat) (wf : Workflow)
    (createNode : String → List (String × Value) → Except WorkflowError Unit)
    (initB : NodeId → Except String Unit)
    (behavior : NodeId → Except String (List (String × Value)))
    (sched : Nat → Nat)
    (initialInputs : List (String × Value)) (fuel : Nat) :
    ((execute maxParallel wf createNode initB behavior sched
        initialInputs fuel).1.contexts.all
      (fun c => decide (c.cancellation = CancellationToken.new))) = true := by
  rw [List.all_eq_true]
  intro c hc
  rw [decide_eq_true_eq]
  exact (execute_ghost maxParallel wf createNode initB behavior sched
    initialInputs fuel).tokens_new c hc

/-- C10: the executor never invokes `shutdown()` on any node instance in
any run: the recorded lifecycle-hook trace contains `initialize` and
`execute` calls only. -/
theorem C10_no_shutdown (maxParallel : Nat) (wf : Workflow)
    (createNode : String → List (String × Value) → Except WorkflowError Unit)
    (initB : NodeId → Except String Unit)
    (behavior : NodeId → Except String (List (String × Value)))
    (sched : Nat → Nat)
    (initialInputs : List (String × Value)) (fuel : Nat) :
    ((execute maxParallel wf createNode initB behavior sched
        initialInputs fuel).1.hooks.all
      (fun hk => decide (hk.2 ≠ NodeHook.shutdownHook))) = true := by
  rw [List.all_eq_true]
  intro hk hh
  rw [decide_eq_true_eq]
  exact (execute_ghost maxParallel wf createNode initB behavior sched
    initialInputs fuel).no_shutdown hk hh

/-- C9: the number of in-flight node tasks never exceeds the
construction-time bound of `WorkflowExecutor::new` (the largest observed
`running` cardinality is at most `maxParallel`); the executor's behavior
is invariant under changing the workflow's own
`settings.max_parallel_nodes` field, which it never reads; and
`RuntimeConfig`'s default parallelism bound is 10. -/
theorem C9_parallelism_cap (maxParallel : Nat) (wf : Workflow)
    (createNode : String → List (String × Value) → Except WorkflowError Unit)
    (initB : NodeId → Except String Unit)
    (behavior : NodeId → Except String (List (String × Value)))
    (sched : Nat → Nat)
    (initialInputs : List (String × Value)) (fuel : Nat) (k : Nat) :
    (execute maxParallel wf createNode initB behavior sched
        initialInputs fuel).1.maxRunningObserved ≤ maxParallel ∧
    execute maxParallel
        { wf with settings := { wf.settings with max_parallel_nodes := k } }
        createNode initB behavior sched initialInputs fuel =
      execute maxParallel wf createNode initB behavior sched initialInputs fuel ∧
    RuntimeConfig.defaultConfig.max_parallel_nodes = 10 :=
  ⟨execute_bound maxParallel wf createNode initB behavior sched initialInputs fuel,
   rfl, rfl⟩

end FlowEngine
